import Mathlib

/-!
Shallow embedding of `src/Day8_UnbalGovt/households.py` (OG-JRC): the
household-optimization primitives of the overlapping-generations model with
endogenous labor supply and an unbalanced government budget.

Modelling conventions:

* NumPy float arithmetic is modelled over `ℝ`; Python `**` is `Real.rpow`.
* `(p,)` arrays that only feed the forward shooting loop of `get_cnb_vecs`
  are modelled as index functions `ℕ → ℝ` together with the explicit length
  `p`; arrays manipulated by slicing, concatenation, or boolean-mask
  assignment (`bn_solve`, `get_b_errors`, `get_n_errors`, the vectorised
  branches of the two stitched functions) are modelled as `List ℝ`.
* `scipy.optimize.root(get_n_errors, l_tilde / 2, ...)` in `get_cnb_vecs` is
  modelled by an abstract per-period solver
  `nsolve : ℝ → ℝ → ℝ → ℝ × Bool` mapping the period's wage, consumption and
  `chi_n` entry (the only loop-varying entries of `n_args`; the remaining
  entries `sigma, l_tilde, b_ellip, upsilon, tau_l, diff` are loop constants
  folded into the solver) to the pair `(result_n.x, result_n.success)`.
  The source reads only `result_n.x` (line 652).
* The `graph=True` plotting side channel of the stitched functions is pure
  I/O diagnostics and is not part of the returned value; it is omitted.
-/

namespace Households

noncomputable section

/-- Three-list analogue of `List.zipWith`: models elementwise NumPy
broadcasting of a ternary operation over three equal-length arrays. -/
def zipWith3 (f : ℝ → ℝ → ℝ → ℝ) : List ℝ → List ℝ → List ℝ → List ℝ
  | a :: as, b :: bs, c :: cs => f a b c :: zipWith3 f as bs cs
  | _, _, _ => []

/-- NumPy boolean-mask assignment `out[mask(src)] = f(src[mask(src)])` applied
to an accumulator array `acc`: positions where the mask holds receive
`f src[i]`, the others keep `acc[i]`. -/
def maskWrite (src acc : List ℝ) (mask : ℝ → Prop) [DecidablePred mask]
    (f : ℝ → ℝ) : List ℝ :=
  List.zipWith (fun c a => if mask c then f c else a) src acc

/-- `get_cons` (source lines 72-75): flow-budget-constraint consumption.
`tax_params = (tau_l, tau_k, tau_c)`; `tau_c` is unpacked but unused. -/
def get_cons (r w b b_sp1 n x : ℝ) (tax_params : ℝ × ℝ × ℝ) : ℝ :=
  let tau_l := tax_params.1
  let tau_k := tax_params.2.1
  (1 + r) * b + w * n - b_sp1 + x - r * b * tau_k - w * n * tau_l

/-- `epsilon` in `MU_c_stitch` (line 122). -/
def MU_epsilon : ℝ := 0.0001

/-- `b2` in `MU_c_stitch` (line 127/137): slope coefficient of the stitched
linear marginal utility below `epsilon`. -/
def MU_b2 (sigma : ℝ) : ℝ := -sigma * MU_epsilon ^ (-sigma - 1) / 2

/-- `b1` in `MU_c_stitch` (line 128/138): intercept of the stitched linear
marginal utility below `epsilon`. -/
def MU_b1 (sigma : ℝ) : ℝ := MU_epsilon ^ (-sigma) - 2 * MU_b2 sigma * MU_epsilon

/-- `MU_c_stitch`, scalar branch (lines 123-131): CRRA marginal utility of
consumption, stitched to a linear function below `epsilon`. -/
def MU_c_stitch (c_s sigma : ℝ) : ℝ :=
  if c_s < MU_epsilon then 2 * MU_b2 sigma * c_s + MU_b1 sigma
  else c_s ^ (-sigma)

/-- `MU_c_stitch`, vector branch (lines 132-139): start from `np.zeros(p)`,
write the CRRA values at the unconstrained positions, then write the linear
values at the constrained positions. -/
def MU_c_stitch_vec (cvec : List ℝ) (sigma : ℝ) : List ℝ :=
  let MU0 := List.replicate cvec.length 0
  let MU1 := maskWrite cvec MU0 (fun c => ¬(c < MU_epsilon)) (fun c => c ^ (-sigma))
  maskWrite cvec MU1 (fun c => c < MU_epsilon)
    (fun c => 2 * MU_b2 sigma * c + MU_b1 sigma)

/-- `eps_low` in `MDU_n_stitch` (line 262). -/
def MDU_eps_low : ℝ := 0.000001

/-- `eps_high` in `MDU_n_stitch` (line 263). -/
def MDU_eps_high (l_tilde : ℝ) : ℝ := l_tilde - 0.000001

/-- The closed-form elliptical marginal disutility of labor (lines 271-274),
the interior branch of `MDU_n_stitch`. -/
def MDU_ellip (l_tilde b_ellip upsilon n : ℝ) : ℝ :=
  b_ellip / l_tilde * (n / l_tilde) ^ (upsilon - 1) *
    (1 - (n / l_tilde) ^ upsilon) ^ ((1 - upsilon) / upsilon)

/-- `b2` in `MDU_n_stitch` (lines 276-281): slope coefficient of the lower
stitched line.  The final reciprocal is written `** (-1)` in the source, i.e.
a float power. -/
def MDU_b2 (l_tilde b_ellip upsilon : ℝ) : ℝ :=
  0.5 * b_ellip * l_tilde ^ (-upsilon) * (upsilon - 1) *
    MDU_eps_low ^ (upsilon - 2) *
    (1 - (MDU_eps_low / l_tilde) ^ upsilon) ^ ((1 - upsilon) / upsilon) *
    (1 + (MDU_eps_low / l_tilde) ^ upsilon *
      (1 - (MDU_eps_low / l_tilde) ^ upsilon) ^ (-1 : ℝ))

/-- `b1` in `MDU_n_stitch` (lines 282-285): intercept of the lower stitched
line. -/
def MDU_b1 (l_tilde b_ellip upsilon : ℝ) : ℝ :=
  b_ellip / l_tilde * (MDU_eps_low / l_tilde) ^ (upsilon - 1) *
    (1 - (MDU_eps_low / l_tilde) ^ upsilon) ^ ((1 - upsilon) / upsilon) -
    2 * MDU_b2 l_tilde b_ellip upsilon * MDU_eps_low

/-- `d2` in `MDU_n_stitch` (lines 288-293): slope coefficient of the upper
stitched line. -/
def MDU_d2 (l_tilde b_ellip upsilon : ℝ) : ℝ :=
  0.5 * b_ellip * l_tilde ^ (-upsilon) * (upsilon - 1) *
    MDU_eps_high l_tilde ^ (upsilon - 2) *
    (1 - (MDU_eps_high l_tilde / l_tilde) ^ upsilon) ^ ((1 - upsilon) / upsilon) *
    (1 + (MDU_eps_high l_tilde / l_tilde) ^ upsilon *
      (1 - (MDU_eps_high l_tilde / l_tilde) ^ upsilon) ^ (-1 : ℝ))

/-- `d1` in `MDU_n_stitch` (lines 294-297): intercept of the upper stitched
line. -/
def MDU_d1 (l_tilde b_ellip upsilon : ℝ) : ℝ :=
  b_ellip / l_tilde * (MDU_eps_high l_tilde / l_tilde) ^ (upsilon - 1) *
    (1 - (MDU_eps_high l_tilde / l_tilde) ^ upsilon) ^ ((1 - upsilon) / upsilon) -
    2 * MDU_d2 l_tilde b_ellip upsilon * MDU_eps_high l_tilde

/-- `MDU_n_stitch`, scalar branch (lines 265-298): `if n_s_uncstr` use the
elliptical form, `elif n_s_low` the lower line, `elif n_s_high` the upper
line.  The `elif` chain is exhaustive over `ℝ`, and the residual `else` of
this embedding is exactly the `n_s_high` case. -/
def MDU_n_stitch (n_s : ℝ) (params : ℝ × ℝ × ℝ) : ℝ :=
  let l_tilde := params.1
  let b_ellip := params.2.1
  let upsilon := params.2.2
  if MDU_eps_low ≤ n_s ∧ n_s ≤ MDU_eps_high l_tilde then
    MDU_ellip l_tilde b_ellip upsilon n_s
  else if n_s < MDU_eps_low then
    2 * MDU_b2 l_tilde b_ellip upsilon * n_s + MDU_b1 l_tilde b_ellip upsilon
  else
    2 * MDU_d2 l_tilde b_ellip upsilon * n_s + MDU_d1 l_tilde b_ellip upsilon

/-- `MDU_n_stitch`, vector branch (lines 300-332): start from `np.zeros(p)`,
write the elliptical values at the unconstrained positions, then the lower
line at the low positions, then the upper line at the high positions. -/
def MDU_n_stitch_vec (nvec : List ℝ) (params : ℝ × ℝ × ℝ) : List ℝ :=
  let l_tilde := params.1
  let b_ellip := params.2.1
  let upsilon := params.2.2
  let MDU0 := List.replicate nvec.length 0
  let MDU1 := maskWrite nvec MDU0
    (fun n => ¬(n < MDU_eps_low) ∧ ¬(n > MDU_eps_high l_tilde))
    (fun n => MDU_ellip l_tilde b_ellip upsilon n)
  let MDU2 := maskWrite nvec MDU1 (fun n => n < MDU_eps_low)
    (fun n => 2 * MDU_b2 l_tilde b_ellip upsilon * n + MDU_b1 l_tilde b_ellip upsilon)
  maskWrite nvec MDU2 (fun n => n > MDU_eps_high l_tilde)
    (fun n => 2 * MDU_d2 l_tilde b_ellip upsilon * n + MDU_d1 l_tilde b_ellip upsilon)

/-- `get_n_errors` (lines 397-452): static labor-supply Euler errors.
`args = (w, cvec, sigma, l_tilde, chi_n_vec, b_ellip, upsilon, tau_l, diff)`;
`w` is a scalar in every call site of this module. -/
def get_n_errors (nvec : List ℝ) (w : ℝ) (cvec : List ℝ) (sigma l_tilde : ℝ)
    (chi_n_vec : List ℝ) (b_ellip upsilon tau_l : ℝ) (diff : Bool) : List ℝ :=
  let mu_c := MU_c_stitch_vec cvec sigma
  let mdu_n := MDU_n_stitch_vec nvec (l_tilde, b_ellip, upsilon)
  if diff then
    List.zipWith (fun m cd => (1 - tau_l) * w * m - cd) mu_c
      (List.zipWith (fun chi d => chi * d) chi_n_vec mdu_n)
  else
    List.zipWith (fun m cd => (1 - tau_l) * w * m / cd - 1) mu_c
      (List.zipWith (fun chi d => chi * d) chi_n_vec mdu_n)

/-- `get_b_errors` (lines 455-498): dynamic savings Euler errors over the two
shifted consumption subsequences `cvec[:-1]` and `cvec[1:]`.
`params = (beta, sigma, tau_k)`; `r` is a scalar in every call site of this
module. -/
def get_b_errors (beta sigma tau_k r : ℝ) (cvec : List ℝ) (diff : Bool) : List ℝ :=
  let mu_c := MU_c_stitch_vec cvec.dropLast sigma
  let mu_cp1 := MU_c_stitch_vec cvec.tail sigma
  if diff then
    List.zipWith (fun mp m => beta * (1 + (1 - tau_k) * r) * mp - m) mu_cp1 mu_c
  else
    List.zipWith (fun mp m => beta * (1 + (1 - tau_k) * r) * mp / m - 1) mu_cp1 mu_c

/-- `bn_solve` (lines 501-566): joint lifetime-system residual for the
`(2S-1,)` guess vector (`S-1` interior savings followed by `S` labor
choices). -/
def bn_solve (guesses : List ℝ) (r w x : ℝ) (S : ℕ)
    (beta sigma l_tilde b_ellip upsilon : ℝ) (chi_n_vec : List ℝ)
    (tax_params : ℝ × ℝ × ℝ) (diff : Bool) : List ℝ :=
  let tau_l := tax_params.1
  let tau_k := tax_params.2.1
  let b_guess := guesses.take (S - 1) ++ [0]
  let n_guess := guesses.drop (S - 1)
  let b_s := 0 :: b_guess.dropLast
  let b_splus1 := b_guess
  let cons := zipWith3 (fun bs bsp1 n => get_cons r w bs bsp1 n x tax_params)
    b_s b_splus1 n_guess
  let error1 := get_b_errors beta sigma tau_k r cons diff
  let error2 := get_n_errors n_guess w cons sigma l_tilde chi_n_vec b_ellip upsilon tau_l diff
  error1 ++ error2

/-- The consumption array of `get_cnb_vecs` (lines 636, 643-644):
`cvec[0] = c_init` and
`cvec[per] = cvec[per-1] * (beta * (1 + (1-tau_k) * rpath[per])) ** (1/sigma)`. -/
def cnb_c (c_init beta sigma tau_k : ℝ) (rpath : ℕ → ℝ) : ℕ → ℝ
  | 0 => c_init
  | per + 1 =>
      cnb_c c_init beta sigma tau_k rpath per *
        (beta * (1 + (1 - tau_k) * rpath (per + 1))) ^ ((1 : ℝ) / sigma)

/-- The labor array of `get_cnb_vecs` (lines 645-652): each period's entry is
the `x` component of the abstract per-period root-find. -/
def cnb_n (nsolve : ℝ → ℝ → ℝ → ℝ × Bool) (wpath chi_n_vec : ℕ → ℝ)
    (c : ℕ → ℝ) : ℕ → ℝ :=
  fun per => (nsolve (wpath per) (c per) (chi_n_vec per)).1

/-- The wealth array of `get_cnb_vecs` (lines 635, 638-642): `bvec[0] = b_init`
and the budget identity rolls wealth forward from the previous period. -/
def cnb_b (b_init tau_l tau_k : ℝ) (rpath wpath xpath : ℕ → ℝ)
    (c n : ℕ → ℝ) : ℕ → ℝ
  | 0 => b_init
  | per + 1 =>
      (1 + rpath per) * cnb_b b_init tau_l tau_k rpath wpath xpath c n per +
        wpath per * n per - c per + xpath per -
        tau_k * rpath per * cnb_b b_init tau_l tau_k rpath wpath xpath c n per -
        tau_l * wpath per * n per

/-- `get_cnb_vecs` (lines 572-659).  Paths are index functions of length `p`
(`p = rpath.shape[0]`, line 629).  The returned tuple is
`(cvec, nvec, bvec, b_Sp1)`.  In the terminal-savings line 655-657 the source
indexes `rpath[-1]`, `wpath[-1]`, `bvec[-1]`, `nvec[-1]`, `cvec[-1]` — the last
entry, index `p - 1` — but indexes the transfer as `xpath[per-1]` where `per`
is the leaked final loop variable `p - 1`, i.e. Python index `p - 2`; for
`p = 1` the Python index is `-1`, selecting entry `0`, which truncated `ℕ`
subtraction `p - 2` also yields. -/
def get_cnb_vecs (c_init : ℝ) (rpath wpath xpath : ℕ → ℝ) (p : ℕ)
    (b_init beta sigma l_tilde b_ellip upsilon : ℝ) (chi_n_vec : ℕ → ℝ)
    (tax_params : ℝ × ℝ × ℝ) (diff : Bool)
    (nsolve : ℝ → ℝ → ℝ → ℝ × Bool) : (ℕ → ℝ) × (ℕ → ℝ) × (ℕ → ℝ) × ℝ :=
  let tau_l := tax_params.1
  let tau_k := tax_params.2.1
  let cvec := cnb_c c_init beta sigma tau_k rpath
  let nvec := cnb_n nsolve wpath chi_n_vec cvec
  let bvec := cnb_b b_init tau_l tau_k rpath wpath xpath cvec nvec
  let b_Sp1 :=
    (1 + rpath (p - 1)) * bvec (p - 1) + wpath (p - 1) * nvec (p - 1) -
      cvec (p - 1) + xpath (p - 2) - tau_k * rpath (p - 1) * bvec (p - 1) -
      tau_l * wpath (p - 1) * nvec (p - 1)
  (cvec, nvec, bvec, b_Sp1)

/-- `c1_bSp1err` (lines 662-714): wraps `get_cnb_vecs` and returns only the
terminal savings `b_Sp1`. -/
def c1_bSp1err (c_init : ℝ) (b_init beta sigma l_tilde b_ellip upsilon : ℝ)
    (chi_n_vec : ℕ → ℝ) (tax_params : ℝ × ℝ × ℝ)
    (xpath rpath wpath : ℕ → ℝ) (p : ℕ) (diff : Bool)
    (nsolve : ℝ → ℝ → ℝ → ℝ × Bool) : ℝ :=
  (get_cnb_vecs c_init rpath wpath xpath p b_init beta sigma l_tilde b_ellip
    upsilon chi_n_vec tax_params diff nsolve).2.2.2

/-! ### Theorems -/

/-! #### List-indexing helper lemmas -/

theorem zipWith3_length (f : ℝ → ℝ → ℝ → ℝ) (as bs cs : List ℝ) :
    (zipWith3 f as bs cs).length = min (min as.length bs.length) cs.length := by
  induction as generalizing bs cs with
  | nil => simp [zipWith3]
  | cons a as ih =>
    cases bs with
    | nil => simp [zipWith3]
    | cons b bs =>
      cases cs with
      | nil => simp [zipWith3]
      | cons c cs =>
        simp only [zipWith3, List.length_cons, ih]
        omega

theorem zipWith3_getD (f : ℝ → ℝ → ℝ → ℝ) (as bs cs : List ℝ) (i : ℕ) (d : ℝ)
    (h1 : i < as.length) (h2 : i < bs.length) (h3 : i < cs.length) :
    (zipWith3 f as bs cs).getD i d =
      f (as.getD i d) (bs.getD i d) (cs.getD i d) := by
  induction as generalizing bs cs i with
  | nil => simp at h1
  | cons a as ih =>
    cases bs with
    | nil => simp at h2
    | cons b bs =>
      cases cs with
      | nil => simp at h3
      | cons c cs =>
        cases i with
        | zero => rfl
        | succ j =>
          simp only [zipWith3, List.getD_cons_succ]
          exact ih bs cs j (by simp at h1; omega) (by simp at h2; omega)
            (by simp at h3; omega)

theorem zipWith_getD (f : ℝ → ℝ → ℝ) (as bs : List ℝ) (i : ℕ) (d : ℝ)
    (h1 : i < as.length) (h2 : i < bs.length) :
    (List.zipWith f as bs).getD i d = f (as.getD i d) (bs.getD i d) := by
  induction as generalizing bs i with
  | nil => simp at h1
  | cons a as ih =>
    cases bs with
    | nil => simp at h2
    | cons b bs =>
      cases i with
      | zero => rfl
      | succ j =>
        simp only [List.zipWith_cons_cons, List.getD_cons_succ]
        exact ih bs j (by simp at h1; omega) (by simp at h2; omega)

theorem maskWrite_length (src acc : List ℝ) (m : ℝ → Prop) [DecidablePred m]
    (f : ℝ → ℝ) : (maskWrite src acc m f).length = min src.length acc.length := by
  simp [maskWrite]

theorem maskWrite_getD (src acc : List ℝ) (m : ℝ → Prop) [DecidablePred m]
    (f : ℝ → ℝ) (i : ℕ) (d : ℝ) (h1 : i < src.length) (h2 : i < acc.length) :
    (maskWrite src acc m f).getD i d =
      if m (src.getD i d) then f (src.getD i d) else acc.getD i d :=
  zipWith_getD _ src acc i d h1 h2

theorem replicate_getD (n i : ℕ) (a d : ℝ) (h : i < n) :
    (List.replicate n a).getD i d = a := by
  rw [List.getD_eq_getElem?_getD, List.getElem?_replicate_of_lt h]
  rfl

theorem take_getD (l : List ℝ) (n i : ℕ) (d : ℝ) (h : i < n) :
    (l.take n).getD i d = l.getD i d := by
  simp [List.getD_eq_getElem?_getD, List.getElem?_take, h]

theorem drop_getD (l : List ℝ) (n i : ℕ) (d : ℝ) :
    (l.drop n).getD i d = l.getD (n + i) d := by
  simp [List.getD_eq_getElem?_getD, List.getElem?_drop]

theorem tail_getD (l : List ℝ) (i : ℕ) (d : ℝ) :
    l.tail.getD i d = l.getD (i + 1) d := by
  cases l <;> simp

theorem dropLast_getD (l : List ℝ) (i : ℕ) (d : ℝ) (h : i + 1 < l.length) :
    l.dropLast.getD i d = l.getD i d := by
  rw [List.dropLast_eq_take]
  exact take_getD l _ i d (by omega)

theorem MU_c_stitch_vec_length (cvec : List ℝ) (sigma : ℝ) :
    (MU_c_stitch_vec cvec sigma).length = cvec.length := by
  simp [MU_c_stitch_vec, maskWrite_length]

theorem MU_c_stitch_vec_getD (cvec : List ℝ) (sigma : ℝ) (i : ℕ)
    (h : i < cvec.length) :
    (MU_c_stitch_vec cvec sigma).getD i 0 =
      MU_c_stitch (cvec.getD i 0) sigma := by
  simp only [MU_c_stitch_vec]
  rw [maskWrite_getD _ _ _ _ _ _ h (by simp [maskWrite_length, h]),
    maskWrite_getD _ _ _ _ _ _ h (by simp [h]), replicate_getD _ _ _ _ h]
  set y := cvec.getD i 0 with hy
  by_cases hc : y < MU_epsilon
  · simp [MU_c_stitch, hc]
  · simp [MU_c_stitch, hc, not_lt.mp hc]

theorem MDU_n_stitch_vec_length (nvec : List ℝ) (params : ℝ × ℝ × ℝ) :
    (MDU_n_stitch_vec nvec params).length = nvec.length := by
  simp [MDU_n_stitch_vec, maskWrite_length]

theorem MDU_n_stitch_vec_getD (nvec : List ℝ) (l_tilde b_ellip upsilon : ℝ)
    (hl : MDU_eps_low ≤ MDU_eps_high l_tilde) (i : ℕ) (h : i < nvec.length) :
    (MDU_n_stitch_vec nvec (l_tilde, b_ellip, upsilon)).getD i 0 =
      MDU_n_stitch (nvec.getD i 0) (l_tilde, b_ellip, upsilon) := by
  simp only [MDU_n_stitch_vec]
  rw [maskWrite_getD _ _ _ _ _ _ h (by simp [maskWrite_length, h]),
    maskWrite_getD _ _ _ _ _ _ h (by simp [maskWrite_length, h]),
    maskWrite_getD _ _ _ _ _ _ h (by simp [h]), replicate_getD _ _ _ _ h]
  set y := nvec.getD i 0 with hy
  by_cases h1 : y < MDU_eps_low
  · have h2 : ¬ y > MDU_eps_high l_tilde := by
      simp only [gt_iff_lt, not_lt]; linarith
    have h3 : ¬ (MDU_eps_low ≤ y ∧ y ≤ MDU_eps_high l_tilde) := by
      rintro ⟨e, _⟩; exact absurd e (not_le.mpr h1)
    simp [MDU_n_stitch, h1, h2, h3, not_lt.mp h2, not_le.mpr h1]
  · by_cases h2 : y > MDU_eps_high l_tilde
    · have h3 : ¬ (MDU_eps_low ≤ y ∧ y ≤ MDU_eps_high l_tilde) := by
        rintro ⟨_, e⟩; exact absurd e (not_le.mpr h2)
      simp [MDU_n_stitch, h1, h2, h3, not_lt.mp h1, not_le.mpr h2]
    · have h3 : MDU_eps_low ≤ y ∧ y ≤ MDU_eps_high l_tilde :=
        ⟨not_lt.mp h1, not_lt.mp h2⟩
      simp [MDU_n_stitch, h1, h2, h3, not_lt.mp h1, not_lt.mp h2]

/-- Derivative of the closed-form elliptical marginal disutility at an
interior point `0 < x < l_tilde`: the slope is exactly twice the source's
`b2`/`d2` coefficient formula evaluated at `x`. -/
theorem hasDerivAt_MDU_ellip (l_tilde b_ellip upsilon x : ℝ)
    (h0 : 0 < x) (hxl : x < l_tilde) (hu : 1 < upsilon) :
    HasDerivAt (MDU_ellip l_tilde b_ellip upsilon)
      (2 * (0.5 * b_ellip * l_tilde ^ (-upsilon) * (upsilon - 1) *
        x ^ (upsilon - 2) *
        (1 - (x / l_tilde) ^ upsilon) ^ ((1 - upsilon) / upsilon) *
        (1 + (x / l_tilde) ^ upsilon *
          (1 - (x / l_tilde) ^ upsilon) ^ (-1 : ℝ)))) x := by
  have hl : 0 < l_tilde := h0.trans hxl
  have hq0 : 0 < x / l_tilde := div_pos h0 hl
  have hq1 : x / l_tilde < 1 := (div_lt_one hl).mpr hxl
  have hu0 : (0 : ℝ) < upsilon := lt_trans one_pos hu
  have hqu : (x / l_tilde) ^ upsilon < 1 := Real.rpow_lt_one hq0.le hq1 hu0
  have hU : 0 < 1 - (x / l_tilde) ^ upsilon := by linarith
  have hP : 0 < l_tilde ^ upsilon := Real.rpow_pos_of_pos hl upsilon
  have hid : HasDerivAt (fun n : ℝ => n / l_tilde) (1 / l_tilde) x := by
    simpa using (hasDerivAt_id x).div_const l_tilde
  have hg1 : HasDerivAt (fun n : ℝ => (n / l_tilde) ^ (upsilon - 1))
      (1 / l_tilde * (upsilon - 1) * (x / l_tilde) ^ (upsilon - 1 - 1)) x :=
    hid.rpow_const (Or.inl hq0.ne')
  have hq : HasDerivAt (fun n : ℝ => (n / l_tilde) ^ upsilon)
      (1 / l_tilde * upsilon * (x / l_tilde) ^ (upsilon - 1)) x :=
    hid.rpow_const (Or.inl hq0.ne')
  have hin : HasDerivAt (fun n : ℝ => 1 - (n / l_tilde) ^ upsilon)
      (-(1 / l_tilde * upsilon * (x / l_tilde) ^ (upsilon - 1))) x :=
    hq.const_sub 1
  have hg2 : HasDerivAt
      (fun n : ℝ =>
        (1 - (n / l_tilde) ^ upsilon) ^ ((1 - upsilon) / upsilon))
      (-(1 / l_tilde * upsilon * (x / l_tilde) ^ (upsilon - 1)) *
        ((1 - upsilon) / upsilon) *
        (1 - (x / l_tilde) ^ upsilon) ^ ((1 - upsilon) / upsilon - 1)) x :=
    hin.rpow_const (Or.inl hU.ne')
  have hprod := (hg1.const_mul (b_ellip / l_tilde)).mul hg2
  have hq2 : (x / l_tilde) ^ (2 : ℝ) = x / l_tilde * (x / l_tilde) := by
    rw [show (2 : ℝ) = ((2 : ℕ) : ℝ) by norm_num, Real.rpow_natCast]; ring
  have hB : (x / l_tilde) ^ upsilon =
      (x / l_tilde) ^ (upsilon - 2) * (x / l_tilde * (x / l_tilde)) := by
    rw [← hq2, ← Real.rpow_add hq0]
    congr 1; ring
  have hx2 : x ^ (upsilon - 2) =
      (x / l_tilde) ^ (upsilon - 2) * l_tilde ^ (upsilon - 2) := by
    rw [← Real.mul_rpow hq0.le hl.le]
    congr 1; field_simp
  have hl2 : l_tilde ^ (upsilon - 2) =
      l_tilde ^ upsilon / (l_tilde * l_tilde) := by
    rw [Real.rpow_sub hl]
    congr 1
    rw [show (2 : ℝ) = ((2 : ℕ) : ℝ) by norm_num, Real.rpow_natCast]; ring
  have hlm : l_tilde ^ (-upsilon) = (l_tilde ^ upsilon)⁻¹ :=
    Real.rpow_neg hl.le upsilon
  convert hprod using 1
  rw [show upsilon - 1 - 1 = upsilon - 2 by ring, Real.rpow_sub hU,
    Real.rpow_one, show upsilon - 1 = upsilon - 2 + 1 by ring,
    Real.rpow_add hq0, Real.rpow_one, Real.rpow_neg_one, hB, hx2, hl2, hlm]
  rw [hB] at hU
  set q : ℝ := x / l_tilde with hqdef
  set A : ℝ := q ^ (upsilon - 2) with hAdef
  set u : ℝ := 1 - A * (q * q) with hudef
  set U : ℝ := u ^ ((1 - upsilon) / upsilon) with hUdef
  set P : ℝ := l_tilde ^ upsilon with hPdef
  field_simp [hl.ne', hu0.ne', hU.ne', hP.ne']
  ring

/-- C4: for `l_tilde` large enough that the stitching interval is nonempty
(`eps_low < eps_high`, i.e. `l_tilde > 2e-6`), `b_ellip > 0` and
`upsilon > 1`, `MDU_n_stitch` returns the closed-form elliptical marginal
disutility on `[eps_low, eps_high]` (hence on the open interval), the lower
linear surrogate `2·b2·n + b1` below `eps_low`, and the upper linear
surrogate `2·d2·n + d1` above `eps_high`; each surrogate matches the
elliptical form in value and in first derivative at its boundary point. -/
theorem MDU_n_stitch_spec (n l_tilde b_ellip upsilon : ℝ)
    (hl : 0.000002 < l_tilde) (hb : 0 < b_ellip) (hu : 1 < upsilon) :
    (MDU_eps_low ≤ n → n ≤ MDU_eps_high l_tilde →
      MDU_n_stitch n (l_tilde, b_ellip, upsilon) =
        MDU_ellip l_tilde b_ellip upsilon n) ∧
    (n < MDU_eps_low →
      MDU_n_stitch n (l_tilde, b_ellip, upsilon) =
        2 * MDU_b2 l_tilde b_ellip upsilon * n +
          MDU_b1 l_tilde b_ellip upsilon) ∧
    (MDU_eps_high l_tilde < n →
      MDU_n_stitch n (l_tilde, b_ellip, upsilon) =
        2 * MDU_d2 l_tilde b_ellip upsilon * n +
          MDU_d1 l_tilde b_ellip upsilon) ∧
    2 * MDU_b2 l_tilde b_ellip upsilon * MDU_eps_low +
        MDU_b1 l_tilde b_ellip upsilon =
      MDU_ellip l_tilde b_ellip upsilon MDU_eps_low ∧
    2 * MDU_d2 l_tilde b_ellip upsilon * MDU_eps_high l_tilde +
        MDU_d1 l_tilde b_ellip upsilon =
      MDU_ellip l_tilde b_ellip upsilon (MDU_eps_high l_tilde) ∧
    HasDerivAt
      (fun m => 2 * MDU_b2 l_tilde b_ellip upsilon * m +
        MDU_b1 l_tilde b_ellip upsilon)
      (2 * MDU_b2 l_tilde b_ellip upsilon) MDU_eps_low ∧
    HasDerivAt (MDU_ellip l_tilde b_ellip upsilon)
      (2 * MDU_b2 l_tilde b_ellip upsilon) MDU_eps_low ∧
    HasDerivAt
      (fun m => 2 * MDU_d2 l_tilde b_ellip upsilon * m +
        MDU_d1 l_tilde b_ellip upsilon)
      (2 * MDU_d2 l_tilde b_ellip upsilon) (MDU_eps_high l_tilde) ∧
    HasDerivAt (MDU_ellip l_tilde b_ellip upsilon)
      (2 * MDU_d2 l_tilde b_ellip upsilon) (MDU_eps_high l_tilde) := by
  have hlow0 : (0 : ℝ) < MDU_eps_low := by norm_num [MDU_eps_low]
  have hlowl : MDU_eps_low < l_tilde := by
    unfold MDU_eps_low; linarith
  have hhigh0 : 0 < MDU_eps_high l_tilde := by
    unfold MDU_eps_high; linarith
  have hhighl : MDU_eps_high l_tilde < l_tilde := by
    unfold MDU_eps_high; linarith
  have hlh : MDU_eps_low < MDU_eps_high l_tilde := by
    unfold MDU_eps_low MDU_eps_high; linarith
  refine ⟨?_, ?_, ?_, by unfold MDU_b1 MDU_ellip; ring,
    by unfold MDU_d1 MDU_ellip; ring, ?_, ?_, ?_, ?_⟩
  · intro h1 h2
    rw [MDU_n_stitch, if_pos ⟨h1, h2⟩]
  · intro h
    rw [MDU_n_stitch, if_neg (by rintro ⟨e, _⟩; exact absurd e (not_le.mpr h)),
      if_pos h]
  · intro h
    rw [MDU_n_stitch, if_neg (by rintro ⟨_, e⟩; exact absurd e (not_le.mpr h)),
      if_neg (by simp only [not_lt]; linarith)]
  · simpa using ((hasDerivAt_id MDU_eps_low).const_mul
      (2 * MDU_b2 l_tilde b_ellip upsilon)).add_const
      (MDU_b1 l_tilde b_ellip upsilon)
  · have := hasDerivAt_MDU_ellip l_tilde b_ellip upsilon MDU_eps_low hlow0
      hlowl hu
    rw [show (2 : ℝ) * (0.5 * b_ellip * l_tilde ^ (-upsilon) * (upsilon - 1) *
        MDU_eps_low ^ (upsilon - 2) *
        (1 - (MDU_eps_low / l_tilde) ^ upsilon) ^ ((1 - upsilon) / upsilon) *
        (1 + (MDU_eps_low / l_tilde) ^ upsilon *
          (1 - (MDU_eps_low / l_tilde) ^ upsilon) ^ (-1 : ℝ))) =
      2 * MDU_b2 l_tilde b_ellip upsilon from by unfold MDU_b2; ring] at this
    exact this
  · simpa using ((hasDerivAt_id (MDU_eps_high l_tilde)).const_mul
      (2 * MDU_d2 l_tilde b_ellip upsilon)).add_const
      (MDU_d1 l_tilde b_ellip upsilon)
  · have := hasDerivAt_MDU_ellip l_tilde b_ellip upsilon
      (MDU_eps_high l_tilde) hhigh0 hhighl hu
    rw [show (2 : ℝ) * (0.5 * b_ellip * l_tilde ^ (-upsilon) * (upsilon - 1) *
        MDU_eps_high l_tilde ^ (upsilon - 2) *
        (1 - (MDU_eps_high l_tilde / l_tilde) ^ upsilon) ^
          ((1 - upsilon) / upsilon) *
        (1 + (MDU_eps_high l_tilde / l_tilde) ^ upsilon *
          (1 - (MDU_eps_high l_tilde / l_tilde) ^ upsilon) ^ (-1 : ℝ))) =
      2 * MDU_d2 l_tilde b_ellip upsilon from by unfold MDU_d2; ring] at this
    exact this

/-- Witness for C4 at `n = 0.5`, `l_tilde = 1`, `b_ellip = 1`,
`upsilon = 2`. -/
theorem MDU_n_stitch_spec_witness :
    ((0.000002 : ℝ) < 1 ∧ (0 : ℝ) < 1 ∧ (1 : ℝ) < 2) ∧
    ((MDU_eps_low ≤ 0.5 → (0.5 : ℝ) ≤ MDU_eps_high 1 →
      MDU_n_stitch 0.5 (1, 1, 2) = MDU_ellip 1 1 2 0.5) ∧
    ((0.5 : ℝ) < MDU_eps_low →
      MDU_n_stitch 0.5 (1, 1, 2) =
        2 * MDU_b2 1 1 2 * 0.5 + MDU_b1 1 1 2) ∧
    (MDU_eps_high 1 < 0.5 →
      MDU_n_stitch 0.5 (1, 1, 2) =
        2 * MDU_d2 1 1 2 * 0.5 + MDU_d1 1 1 2) ∧
    2 * MDU_b2 1 1 2 * MDU_eps_low + MDU_b1 1 1 2 =
      MDU_ellip 1 1 2 MDU_eps_low ∧
    2 * MDU_d2 1 1 2 * MDU_eps_high 1 + MDU_d1 1 1 2 =
      MDU_ellip 1 1 2 (MDU_eps_high 1) ∧
    HasDerivAt (fun m => 2 * MDU_b2 1 1 2 * m + MDU_b1 1 1 2)
      (2 * MDU_b2 1 1 2) MDU_eps_low ∧
    HasDerivAt (MDU_ellip 1 1 2) (2 * MDU_b2 1 1 2) MDU_eps_low ∧
    HasDerivAt (fun m => 2 * MDU_d2 1 1 2 * m + MDU_d1 1 1 2)
      (2 * MDU_d2 1 1 2) (MDU_eps_high 1) ∧
    HasDerivAt (MDU_ellip 1 1 2) (2 * MDU_d2 1 1 2) (MDU_eps_high 1)) :=
  ⟨⟨by norm_num, by norm_num, by norm_num⟩,
    MDU_n_stitch_spec 0.5 1 1 2 (by norm_num) (by norm_num) (by norm_num)⟩

/-- C7: applying the vectorised, mask-based branches of `MU_c_stitch` and
`MDU_n_stitch` to a one-dimensional input yields at every index exactly the
value of the scalar branch applied to that entry (for `MDU_n_stitch` this
requires the valid-parameter condition `eps_low ≤ eps_high`, i.e.
`l_tilde ≥ 2e-6`, without which the stitched regions overlap). -/
theorem stitched_vec_eq_scalar (cvec nvec : List ℝ)
    (sigma l_tilde b_ellip upsilon : ℝ) (i j : ℕ)
    (hl : MDU_eps_low ≤ MDU_eps_high l_tilde)
    (hi : i < cvec.length) (hj : j < nvec.length) :
    (MU_c_stitch_vec cvec sigma).getD i 0 =
      MU_c_stitch (cvec.getD i 0) sigma ∧
    (MDU_n_stitch_vec nvec (l_tilde, b_ellip, upsilon)).getD j 0 =
      MDU_n_stitch (nvec.getD j 0) (l_tilde, b_ellip, upsilon) :=
  ⟨MU_c_stitch_vec_getD cvec sigma i hi,
    MDU_n_stitch_vec_getD nvec l_tilde b_ellip upsilon hl j hj⟩

/-- Witness for C7 on the vectors `cvec = [1, 0]`, `nvec = [0.5, 2]` with
`sigma = 2`, `l_tilde = 1`, `b_ellip = 1`, `upsilon = 2`, at index 1. -/
theorem stitched_vec_eq_scalar_witness :
    (MDU_eps_low ≤ MDU_eps_high 1 ∧ 1 < ([(1 : ℝ), 0]).length ∧
      1 < ([(0.5 : ℝ), 2]).length) ∧
    ((MU_c_stitch_vec [(1 : ℝ), 0] 2).getD 1 0 =
      MU_c_stitch (([(1 : ℝ), 0]).getD 1 0) 2 ∧
    (MDU_n_stitch_vec [(0.5 : ℝ), 2] (1, 1, 2)).getD 1 0 =
      MDU_n_stitch (([(0.5 : ℝ), 2]).getD 1 0) (1, 1, 2)) :=
  ⟨⟨by norm_num [MDU_eps_low, MDU_eps_high], by simp, by simp⟩,
    stitched_vec_eq_scalar [(1 : ℝ), 0] [(0.5 : ℝ), 2] 2 1 1 2 1 1
      (by norm_num [MDU_eps_low, MDU_eps_high]) (by simp) (by simp)⟩

/-- C5: for a guess vector of length `2S-1` (`S-1` interior savings followed
by `S` labor choices), `bn_solve` fixes wealth at age 1 to `0` and terminal
savings to `0`, sets wealth at age `s` to the savings chosen at age `s-1`,
computes consumption elementwise via `get_cons`, and returns the `S-1`
savings-Euler residuals `beta·(1+(1−tau_k)·r)·MU_c(c_{t+1}) − MU_c(c_t)` (or
their percent form) followed by the `S` labor-Euler residuals, as a single
flat vector of length `2S-1`. -/
theorem bn_solve_spec (guesses : List ℝ) (r w x : ℝ) (S : ℕ)
    (beta sigma l_tilde b_ellip upsilon : ℝ) (chi_n_vec : List ℝ)
    (tau_l tau_k tau_c : ℝ) (diff : Bool) (t s : ℕ)
    (hS : 1 ≤ S) (hlen : guesses.length = 2 * S - 1)
    (hchi : chi_n_vec.length = S)
    (hl : MDU_eps_low ≤ MDU_eps_high l_tilde)
    (ht : t + 1 < S) (hs : s < S) :
    (bn_solve guesses r w x S beta sigma l_tilde b_ellip upsilon chi_n_vec
        (tau_l, tau_k, tau_c) diff).length = 2 * S - 1 ∧
    (bn_solve guesses r w x S beta sigma l_tilde b_ellip upsilon chi_n_vec
        (tau_l, tau_k, tau_c) diff).getD t 0 =
      (if diff then
        beta * (1 + (1 - tau_k) * r) *
            MU_c_stitch (get_cons r w (guesses.getD t 0)
              (if t + 1 = S - 1 then 0 else guesses.getD (t + 1) 0)
              (guesses.getD (S - 1 + (t + 1)) 0) x
              (tau_l, tau_k, tau_c)) sigma -
          MU_c_stitch (get_cons r w
              (if t = 0 then 0 else guesses.getD (t - 1) 0)
              (if t = S - 1 then 0 else guesses.getD t 0)
              (guesses.getD (S - 1 + t) 0) x (tau_l, tau_k, tau_c)) sigma
      else
        beta * (1 + (1 - tau_k) * r) *
            MU_c_stitch (get_cons r w (guesses.getD t 0)
              (if t + 1 = S - 1 then 0 else guesses.getD (t + 1) 0)
              (guesses.getD (S - 1 + (t + 1)) 0) x
              (tau_l, tau_k, tau_c)) sigma /
          MU_c_stitch (get_cons r w
              (if t = 0 then 0 else guesses.getD (t - 1) 0)
              (if t = S - 1 then 0 else guesses.getD t 0)
              (guesses.getD (S - 1 + t) 0) x (tau_l, tau_k, tau_c)) sigma -
          1) ∧
    (bn_solve guesses r w x S beta sigma l_tilde b_ellip upsilon chi_n_vec
        (tau_l, tau_k, tau_c) diff).getD (S - 1 + s) 0 =
      (if diff then
        (1 - tau_l) * w *
            MU_c_stitch (get_cons r w
              (if s = 0 then 0 else guesses.getD (s - 1) 0)
              (if s = S - 1 then 0 else guesses.getD s 0)
              (guesses.getD (S - 1 + s) 0) x (tau_l, tau_k, tau_c)) sigma -
          chi_n_vec.getD s 0 *
            MDU_n_stitch (guesses.getD (S - 1 + s) 0)
              (l_tilde, b_ellip, upsilon)
      else
        (1 - tau_l) * w *
            MU_c_stitch (get_cons r w
              (if s = 0 then 0 else guesses.getD (s - 1) 0)
              (if s = S - 1 then 0 else guesses.getD s 0)
              (guesses.getD (S - 1 + s) 0) x (tau_l, tau_k, tau_c)) sigma /
          (chi_n_vec.getD s 0 *
            MDU_n_stitch (guesses.getD (S - 1 + s) 0)
              (l_tilde, b_ellip, upsilon)) -
          1) := by
  simp only [bn_solve]
  set bg : List ℝ := guesses.take (S - 1) ++ [0] with hbg
  set ng : List ℝ := guesses.drop (S - 1) with hng
  set bs : List ℝ := 0 :: bg.dropLast with hbs
  set cons : List ℝ :=
    zipWith3 (fun a b c => get_cons r w a b c x (tau_l, tau_k, tau_c))
      bs bg ng with hcons
  have hTake : (guesses.take (S - 1)).length = S - 1 := by
    rw [List.length_take, hlen]; omega
  have hdl : bg.dropLast = guesses.take (S - 1) := by rw [hbg]; simp
  have hbgl : bg.length = S := by
    rw [hbg, List.length_append, hTake]; simp; omega
  have hbsl : bs.length = S := by
    rw [hbs, List.length_cons, hdl, hTake]; omega
  have hngl : ng.length = S := by rw [hng, List.length_drop, hlen]; omega
  have hconsl : cons.length = S := by
    rw [hcons, zipWith3_length, hbsl, hbgl, hngl]; simp
  have hbsD : ∀ u, u < S →
      bs.getD u 0 = if u = 0 then 0 else guesses.getD (u - 1) 0 := by
    intro u hu
    rw [hbs, hdl]
    cases u with
    | zero => simp
    | succ v =>
      rw [List.getD_cons_succ, take_getD _ _ _ _ (by omega)]
      simp
  have hbgD : ∀ u, u < S →
      bg.getD u 0 = if u = S - 1 then 0 else guesses.getD u 0 := by
    intro u hu
    rw [hbg]
    by_cases hu1 : u = S - 1
    · subst hu1
      rw [List.getD_append_right _ _ _ _ (by rw [hTake])]
      simp [hTake]
    · rw [List.getD_append _ _ _ _ (by rw [hTake]; omega),
        take_getD _ _ _ _ (by omega)]
      simp [hu1]
  have hngD : ∀ u, ng.getD u 0 = guesses.getD (S - 1 + u) 0 := by
    intro u; rw [hng, drop_getD]
  have hconsD : ∀ u, u < S → cons.getD u 0 =
      get_cons r w (if u = 0 then 0 else guesses.getD (u - 1) 0)
        (if u = S - 1 then 0 else guesses.getD u 0)
        (guesses.getD (S - 1 + u) 0) x (tau_l, tau_k, tau_c) := by
    intro u hu
    rw [hcons, zipWith3_getD _ _ _ _ _ _ (by rw [hbsl]; omega)
        (by rw [hbgl]; omega) (by rw [hngl]; omega),
      hbsD u hu, hbgD u hu, hngD u]
  have hdll : cons.dropLast.length = S - 1 := by
    rw [List.length_dropLast, hconsl]
  have htll : cons.tail.length = S - 1 := by
    rw [List.length_tail, hconsl]
  have herr1l : (get_b_errors beta sigma tau_k r cons diff).length = S - 1 := by
    unfold get_b_errors
    cases diff <;>
      simp [MU_c_stitch_vec_length, hdll, htll]
  have herr2l : (get_n_errors ng w cons sigma l_tilde chi_n_vec b_ellip
      upsilon tau_l diff).length = S := by
    unfold get_n_errors
    cases diff <;>
      simp [MU_c_stitch_vec_length, MDU_n_stitch_vec_length, hconsl, hngl,
        hchi]
  have herr1D : (get_b_errors beta sigma tau_k r cons diff).getD t 0 =
      (if diff then
        beta * (1 + (1 - tau_k) * r) * MU_c_stitch (cons.getD (t + 1) 0) sigma -
          MU_c_stitch (cons.getD t 0) sigma
      else
        beta * (1 + (1 - tau_k) * r) * MU_c_stitch (cons.getD (t + 1) 0) sigma /
          MU_c_stitch (cons.getD t 0) sigma - 1) := by
    have h1 : t < cons.tail.length := by rw [htll]; omega
    have h2 : t < cons.dropLast.length := by rw [hdll]; omega
    unfold get_b_errors
    cases diff <;>
      simp only [Bool.false_eq_true, if_false, if_true] <;>
      rw [zipWith_getD _ _ _ _ _
          (by rw [MU_c_stitch_vec_length, htll]; omega)
          (by rw [MU_c_stitch_vec_length, hdll]; omega),
        MU_c_stitch_vec_getD _ _ _ h1, MU_c_stitch_vec_getD _ _ _ h2,
        tail_getD, dropLast_getD _ _ _ (by rw [hconsl]; omega)]
  have herr2D : ∀ u, u < S →
      (get_n_errors ng w cons sigma l_tilde chi_n_vec b_ellip upsilon tau_l
        diff).getD u 0 =
      (if diff then
        (1 - tau_l) * w * MU_c_stitch (cons.getD u 0) sigma -
          chi_n_vec.getD u 0 *
            MDU_n_stitch (ng.getD u 0) (l_tilde, b_ellip, upsilon)
      else
        (1 - tau_l) * w * MU_c_stitch (cons.getD u 0) sigma /
          (chi_n_vec.getD u 0 *
            MDU_n_stitch (ng.getD u 0) (l_tilde, b_ellip, upsilon)) - 1) := by
    intro u hu
    have h1 : u < cons.length := by rw [hconsl]; omega
    have h2 : u < ng.length := by rw [hngl]; omega
    unfold get_n_errors
    cases diff <;>
      simp only [Bool.false_eq_true, if_false, if_true] <;>
      rw [zipWith_getD _ _ _ _ _
          (by rw [MU_c_stitch_vec_length, hconsl]; omega)
          (by simp [MDU_n_stitch_vec_length, hngl, hchi]; omega),
        MU_c_stitch_vec_getD _ _ _ h1,
        zipWith_getD _ _ _ _ _ (by rw [hchi]; omega)
          (by rw [MDU_n_stitch_vec_length, hngl]; omega),
        MDU_n_stitch_vec_getD _ _ _ _ hl _ h2]
  refine ⟨?_, ?_, ?_⟩
  · rw [List.length_append, herr1l, herr2l]; omega
  · rw [List.getD_append _ _ _ _ (by rw [herr1l]; omega), herr1D,
      hconsD t (by omega), hconsD (t + 1) (by omega)]
    simp
  · have hidx : S - 1 + s -
        (get_b_errors beta sigma tau_k r cons diff).length = s := by
      rw [herr1l]; omega
    rw [List.getD_append_right _ _ _ _ (by rw [herr1l]; omega), hidx,
      herr2D s hs, hconsD s hs, hngD s]

/-- Witness for C5 at `S = 2`, `guesses = [1, 0.4, 0.6]`, difference-form
residuals, savings index `t = 0` and labor index `s = 1`. -/
theorem bn_solve_spec_witness :
    (1 ≤ 2 ∧ ([(1 : ℝ), 0.4, 0.6]).length = 2 * 2 - 1 ∧
      ([(1 : ℝ), 1]).length = 2 ∧ MDU_eps_low ≤ MDU_eps_high 1 ∧
      0 + 1 < 2 ∧ 1 < 2) ∧
    ((bn_solve [(1 : ℝ), 0.4, 0.6] 0 1 0 2 1 2 1 1 2 [(1 : ℝ), 1] (0, 0, 0)
        true).length = 2 * 2 - 1 ∧
    (bn_solve [(1 : ℝ), 0.4, 0.6] 0 1 0 2 1 2 1 1 2 [(1 : ℝ), 1] (0, 0, 0)
        true).getD 0 0 =
      1 * (1 + (1 - 0) * 0) *
          MU_c_stitch (get_cons 0 1 1 0 0.6 0 (0, 0, 0)) 2 -
        MU_c_stitch (get_cons 0 1 0 1 0.4 0 (0, 0, 0)) 2 ∧
    (bn_solve [(1 : ℝ), 0.4, 0.6] 0 1 0 2 1 2 1 1 2 [(1 : ℝ), 1] (0, 0, 0)
        true).getD 2 0 =
      (1 - 0) * 1 * MU_c_stitch (get_cons 0 1 1 0 0.6 0 (0, 0, 0)) 2 -
        1 * MDU_n_stitch 0.6 (1, 1, 2)) :=
  ⟨⟨by norm_num, by decide, by decide,
      by norm_num [MDU_eps_low, MDU_eps_high], by norm_num, by norm_num⟩,
    bn_solve_spec [(1 : ℝ), 0.4, 0.6] 0 1 0 2 1 2 1 1 2 [(1 : ℝ), 1] 0 0 0
      true 0 1 (by norm_num) (by decide) (by decide)
      (by norm_num [MDU_eps_low, MDU_eps_high]) (by norm_num) (by norm_num)⟩

/-- C6: `get_cons` returns exactly
`(1+r)·b + w·n − b_sp1 + x − r·b·tau_k − w·n·tau_l`, and for fixed rates and
taxes the result is affine-linear in each of `b`, `n`, `b_sp1`, and `x`
separately: shifting one argument by `d` shifts the result by the
corresponding constant multiple of `d`.  As a total function of real
arguments it has no error cases. -/
theorem get_cons_spec (r w b b_sp1 n x tau_l tau_k tau_c d : ℝ) :
    get_cons r w b b_sp1 n x (tau_l, tau_k, tau_c) =
      (1 + r) * b + w * n - b_sp1 + x - r * b * tau_k - w * n * tau_l ∧
    get_cons r w (b + d) b_sp1 n x (tau_l, tau_k, tau_c) =
      get_cons r w b b_sp1 n x (tau_l, tau_k, tau_c) + (1 + r - r * tau_k) * d ∧
    get_cons r w b b_sp1 (n + d) x (tau_l, tau_k, tau_c) =
      get_cons r w b b_sp1 n x (tau_l, tau_k, tau_c) + (w - w * tau_l) * d ∧
    get_cons r w b (b_sp1 + d) n x (tau_l, tau_k, tau_c) =
      get_cons r w b b_sp1 n x (tau_l, tau_k, tau_c) - d ∧
    get_cons r w b b_sp1 n (x + d) (tau_l, tau_k, tau_c) =
      get_cons r w b b_sp1 n x (tau_l, tau_k, tau_c) + d := by
  unfold get_cons
  exact ⟨rfl, by ring, by ring, by ring, by ring⟩

/-- C10: the consumption tax rate `tau_c` is unpacked from the tax triple but
never used in any computation: `get_cons`, `bn_solve`, `get_cnb_vecs`, and
`c1_bSp1err` return identical results on tax triples that differ only in
`tau_c`. -/
theorem tau_c_unused (r w b b_sp1 n x : ℝ) (guesses chi_l : List ℝ) (S : ℕ)
    (beta sigma l_tilde b_ellip upsilon tau_l tau_k tau_c tau_c' : ℝ)
    (c_init b_init : ℝ) (rpath wpath xpath chi_n_vec : ℕ → ℝ) (p : ℕ)
    (diff : Bool) (nsolve : ℝ → ℝ → ℝ → ℝ × Bool) :
    get_cons r w b b_sp1 n x (tau_l, tau_k, tau_c) =
      get_cons r w b b_sp1 n x (tau_l, tau_k, tau_c') ∧
    bn_solve guesses r w x S beta sigma l_tilde b_ellip upsilon chi_l
        (tau_l, tau_k, tau_c) diff =
      bn_solve guesses r w x S beta sigma l_tilde b_ellip upsilon chi_l
        (tau_l, tau_k, tau_c') diff ∧
    get_cnb_vecs c_init rpath wpath xpath p b_init beta sigma l_tilde b_ellip
        upsilon chi_n_vec (tau_l, tau_k, tau_c) diff nsolve =
      get_cnb_vecs c_init rpath wpath xpath p b_init beta sigma l_tilde b_ellip
        upsilon chi_n_vec (tau_l, tau_k, tau_c') diff nsolve ∧
    c1_bSp1err c_init b_init beta sigma l_tilde b_ellip upsilon chi_n_vec
        (tau_l, tau_k, tau_c) xpath rpath wpath p diff nsolve =
      c1_bSp1err c_init b_init beta sigma l_tilde b_ellip upsilon chi_n_vec
        (tau_l, tau_k, tau_c') xpath rpath wpath p diff nsolve :=
  ⟨rfl, rfl, rfl, rfl⟩

/-- C1: `get_cnb_vecs` sets period-0 wealth to `b_init` and period-0
consumption to `c_init`; for every period `1 ≤ t ≤ p-1` it computes wealth by
the budget identity from the previous period's values and consumption by the
Euler growth relation `c_t = c_{t-1}·(beta·(1+(1−tau_k)·r_t))^(1/sigma)`; and
each period's labor entry is the per-period solve invoked at that period's
wage, that period's (already-known) consumption, and that period's `chi_n`
entry. -/
theorem get_cnb_vecs_forward (c_init b_init beta sigma l_tilde b_ellip upsilon
    tau_l tau_k tau_c : ℝ) (rpath wpath xpath chi_n_vec : ℕ → ℝ) (p : ℕ)
    (diff : Bool) (nsolve : ℝ → ℝ → ℝ → ℝ × Bool) (t s : ℕ)
    (ht1 : 1 ≤ t) (htp : t ≤ p - 1) (hs : s ≤ p - 1) :
    (get_cnb_vecs c_init rpath wpath xpath p b_init beta sigma l_tilde b_ellip
        upsilon chi_n_vec (tau_l, tau_k, tau_c) diff nsolve).2.2.1 0 = b_init ∧
    (get_cnb_vecs c_init rpath wpath xpath p b_init beta sigma l_tilde b_ellip
        upsilon chi_n_vec (tau_l, tau_k, tau_c) diff nsolve).1 0 = c_init ∧
    (get_cnb_vecs c_init rpath wpath xpath p b_init beta sigma l_tilde b_ellip
        upsilon chi_n_vec (tau_l, tau_k, tau_c) diff nsolve).2.2.1 t =
      (1 + rpath (t - 1)) *
          (get_cnb_vecs c_init rpath wpath xpath p b_init beta sigma l_tilde
            b_ellip upsilon chi_n_vec (tau_l, tau_k, tau_c) diff nsolve).2.2.1
            (t - 1) +
        wpath (t - 1) *
          (get_cnb_vecs c_init rpath wpath xpath p b_init beta sigma l_tilde
            b_ellip upsilon chi_n_vec (tau_l, tau_k, tau_c) diff nsolve).2.1
            (t - 1) -
        (get_cnb_vecs c_init rpath wpath xpath p b_init beta sigma l_tilde
          b_ellip upsilon chi_n_vec (tau_l, tau_k, tau_c) diff nsolve).1
          (t - 1) +
        xpath (t - 1) -
        tau_k * rpath (t - 1) *
          (get_cnb_vecs c_init rpath wpath xpath p b_init beta sigma l_tilde
            b_ellip upsilon chi_n_vec (tau_l, tau_k, tau_c) diff nsolve).2.2.1
            (t - 1) -
        tau_l * wpath (t - 1) *
          (get_cnb_vecs c_init rpath wpath xpath p b_init beta sigma l_tilde
            b_ellip upsilon chi_n_vec (tau_l, tau_k, tau_c) diff nsolve).2.1
            (t - 1) ∧
    (get_cnb_vecs c_init rpath wpath xpath p b_init beta sigma l_tilde b_ellip
        upsilon chi_n_vec (tau_l, tau_k, tau_c) diff nsolve).1 t =
      (get_cnb_vecs c_init rpath wpath xpath p b_init beta sigma l_tilde
          b_ellip upsilon chi_n_vec (tau_l, tau_k, tau_c) diff nsolve).1
          (t - 1) *
        (beta * (1 + (1 - tau_k) * rpath t)) ^ ((1 : ℝ) / sigma) ∧
    (get_cnb_vecs c_init rpath wpath xpath p b_init beta sigma l_tilde b_ellip
        upsilon chi_n_vec (tau_l, tau_k, tau_c) diff nsolve).2.1 s =
      (nsolve (wpath s)
        ((get_cnb_vecs c_init rpath wpath xpath p b_init beta sigma l_tilde
          b_ellip upsilon chi_n_vec (tau_l, tau_k, tau_c) diff nsolve).1 s)
        (chi_n_vec s)).1 := by
  obtain ⟨u, rfl⟩ : ∃ u, t = u + 1 := ⟨t - 1, (Nat.succ_pred_eq_of_pos ht1).symm⟩
  refine ⟨rfl, rfl, ?_, ?_, rfl⟩ <;>
    simp [get_cnb_vecs, cnb_b, cnb_c, cnb_n, Nat.add_sub_cancel]

/-- Witness for C1 at `p = 2`, `t = 1`, `s = 0` with concrete data. -/
theorem get_cnb_vecs_forward_witness :
    (1 ≤ 1 ∧ 1 ≤ 2 - 1 ∧ 0 ≤ 2 - 1) ∧
    ((get_cnb_vecs 1 (fun _ => 0) (fun _ => 1) (fun _ => 0) 2 0 1 2 1 1 2
        (fun _ => 1) (0, 0, 0) true (fun _ _ _ => (0.3, true))).2.2.1 0 = 0 ∧
    (get_cnb_vecs 1 (fun _ => 0) (fun _ => 1) (fun _ => 0) 2 0 1 2 1 1 2
        (fun _ => 1) (0, 0, 0) true (fun _ _ _ => (0.3, true))).1 0 = 1 ∧
    (get_cnb_vecs 1 (fun _ => 0) (fun _ => 1) (fun _ => 0) 2 0 1 2 1 1 2
        (fun _ => 1) (0, 0, 0) true (fun _ _ _ => (0.3, true))).2.2.1 1 =
      (1 + (fun _ : ℕ => (0 : ℝ)) (1 - 1)) *
          (get_cnb_vecs 1 (fun _ => 0) (fun _ => 1) (fun _ => 0) 2 0 1 2 1 1 2
            (fun _ => 1) (0, 0, 0) true (fun _ _ _ => (0.3, true))).2.2.1
            (1 - 1) +
        (fun _ : ℕ => (1 : ℝ)) (1 - 1) *
          (get_cnb_vecs 1 (fun _ => 0) (fun _ => 1) (fun _ => 0) 2 0 1 2 1 1 2
            (fun _ => 1) (0, 0, 0) true (fun _ _ _ => (0.3, true))).2.1
            (1 - 1) -
        (get_cnb_vecs 1 (fun _ => 0) (fun _ => 1) (fun _ => 0) 2 0 1 2 1 1 2
          (fun _ => 1) (0, 0, 0) true (fun _ _ _ => (0.3, true))).1 (1 - 1) +
        (fun _ : ℕ => (0 : ℝ)) (1 - 1) -
        0 * (fun _ : ℕ => (0 : ℝ)) (1 - 1) *
          (get_cnb_vecs 1 (fun _ => 0) (fun _ => 1) (fun _ => 0) 2 0 1 2 1 1 2
            (fun _ => 1) (0, 0, 0) true (fun _ _ _ => (0.3, true))).2.2.1
            (1 - 1) -
        0 * (fun _ : ℕ => (1 : ℝ)) (1 - 1) *
          (get_cnb_vecs 1 (fun _ => 0) (fun _ => 1) (fun _ => 0) 2 0 1 2 1 1 2
            (fun _ => 1) (0, 0, 0) true (fun _ _ _ => (0.3, true))).2.1
            (1 - 1) ∧
    (get_cnb_vecs 1 (fun _ => 0) (fun _ => 1) (fun _ => 0) 2 0 1 2 1 1 2
        (fun _ => 1) (0, 0, 0) true (fun _ _ _ => (0.3, true))).1 1 =
      (get_cnb_vecs 1 (fun _ => 0) (fun _ => 1) (fun _ => 0) 2 0 1 2 1 1 2
          (fun _ => 1) (0, 0, 0) true (fun _ _ _ => (0.3, true))).1 (1 - 1) *
        (1 * (1 + (1 - 0) * (fun _ : ℕ => (0 : ℝ)) 1)) ^ ((1 : ℝ) / 2) ∧
    (get_cnb_vecs 1 (fun _ => 0) (fun _ => 1) (fun _ => 0) 2 0 1 2 1 1 2
        (fun _ => 1) (0, 0, 0) true (fun _ _ _ => (0.3, true))).2.1 0 =
      ((fun _ _ _ => ((0.3 : ℝ), true)) ((fun _ : ℕ => (1 : ℝ)) 0)
        ((get_cnb_vecs 1 (fun _ => 0) (fun _ => 1) (fun _ => 0) 2 0 1 2 1 1 2
          (fun _ => 1) (0, 0, 0) true (fun _ _ _ => (0.3, true))).1 0)
        ((fun _ : ℕ => (1 : ℝ)) 0)).1) :=
  ⟨⟨by decide, by decide, by decide⟩,
    get_cnb_vecs_forward 1 0 1 2 1 1 2 0 0 0 (fun _ => 0) (fun _ => 1)
      (fun _ => 0) (fun _ => 1) 2 true (fun _ _ _ => (0.3, true)) 1 0
      (by decide) (by decide) (by decide)⟩

/-- A concrete run of `get_cnb_vecs` at `p = 2` with transfer path
`xpath i = i` and every other quantity zero, exhibiting the terminal-transfer
indexing slip (C2). -/
def cnbBugRun : (ℕ → ℝ) × (ℕ → ℝ) × (ℕ → ℝ) × ℝ :=
  get_cnb_vecs 0 (fun _ => 0) (fun _ => 0) (fun i => (i : ℝ)) 2 0 1 1 1 1 2
    (fun _ => 1) (0, 0, 0) true (fun _ _ _ => (0, true))

/-- C2 (code bug): at `p = 2` with `xpath = (0, 1)` and all other data zero,
the terminal savings returned by `get_cnb_vecs` equals `0` — the leaked loop
variable makes line 656 read `xpath[per-1] = xpath[0]`, the second-to-last
transfer — whereas the budget identity applied to the last period's state
with the path's last transfer `xpath[1] = 1` equals `1`. -/
theorem get_cnb_vecs_terminal_transfer_bug :
    cnbBugRun.2.2.2 = 0 ∧
    (1 + (fun _ : ℕ => (0 : ℝ)) 1) * cnbBugRun.2.2.1 1 +
        (fun _ : ℕ => (0 : ℝ)) 1 * cnbBugRun.2.1 1 - cnbBugRun.1 1 +
        (fun i : ℕ => (i : ℝ)) 1 -
        0 * (fun _ : ℕ => (0 : ℝ)) 1 * cnbBugRun.2.2.1 1 -
        0 * (fun _ : ℕ => (0 : ℝ)) 1 * cnbBugRun.2.1 1 = 1 ∧
    (0 : ℝ) ≠ 1 := by
  refine ⟨?_, ?_, by norm_num⟩ <;>
    simp [cnbBugRun, get_cnb_vecs, cnb_b, cnb_c, cnb_n]

/-- C8 (amended): `get_cnb_vecs` reads only the iterate `result_n.x` of each
per-period root-find (line 652) and returns no convergence information: its
output is identical for any two solvers that agree on the returned iterate
regardless of their success flags, and each period's labor entry is the
solver's iterate as-is.  Non-convergence is therefore never surfaced to the
caller. -/
theorem get_cnb_vecs_ignores_solver_status (c_init b_init beta sigma l_tilde
    b_ellip upsilon tau_l tau_k tau_c : ℝ)
    (rpath wpath xpath chi_n_vec : ℕ → ℝ) (p t : ℕ) (diff : Bool)
    (nsolve nsolve' : ℝ → ℝ → ℝ → ℝ × Bool)
    (h : ∀ a b c, (nsolve a b c).1 = (nsolve' a b c).1) :
    get_cnb_vecs c_init rpath wpath xpath p b_init beta sigma l_tilde b_ellip
        upsilon chi_n_vec (tau_l, tau_k, tau_c) diff nsolve =
      get_cnb_vecs c_init rpath wpath xpath p b_init beta sigma l_tilde
        b_ellip upsilon chi_n_vec (tau_l, tau_k, tau_c) diff nsolve' ∧
    (get_cnb_vecs c_init rpath wpath xpath p b_init beta sigma l_tilde b_ellip
        upsilon chi_n_vec (tau_l, tau_k, tau_c) diff nsolve).2.1 t =
      (nsolve (wpath t)
        ((get_cnb_vecs c_init rpath wpath xpath p b_init beta sigma l_tilde
          b_ellip upsilon chi_n_vec (tau_l, tau_k, tau_c) diff nsolve).1 t)
        (chi_n_vec t)).1 := by
  have hn : cnb_n nsolve wpath chi_n_vec (cnb_c c_init beta sigma tau_k rpath) =
      cnb_n nsolve' wpath chi_n_vec (cnb_c c_init beta sigma tau_k rpath) :=
    funext fun per => h _ _ _
  refine ⟨?_, rfl⟩
  show (cnb_c c_init beta sigma tau_k rpath,
      cnb_n nsolve wpath chi_n_vec (cnb_c c_init beta sigma tau_k rpath),
      cnb_b b_init tau_l tau_k rpath wpath xpath
        (cnb_c c_init beta sigma tau_k rpath)
        (cnb_n nsolve wpath chi_n_vec (cnb_c c_init beta sigma tau_k rpath)),
      _) = _
  rw [hn]; rfl

/-- Witness for C8's amended statement: two solvers returning the same
iterate `0.3` with opposite success flags. -/
theorem get_cnb_vecs_ignores_solver_status_witness :
    (∀ a b c : ℝ, (((fun _ _ _ => ((0.3 : ℝ), false)) : ℝ → ℝ → ℝ → ℝ × Bool) a b c).1 =
      (((fun _ _ _ => ((0.3 : ℝ), true)) : ℝ → ℝ → ℝ → ℝ × Bool) a b c).1) ∧
    (get_cnb_vecs 1 (fun _ => 0) (fun _ => 1) (fun _ => 0) 1 0 1 1 1 1 2
        (fun _ => 1) (0, 0, 0) true (fun _ _ _ => (0.3, false)) =
      get_cnb_vecs 1 (fun _ => 0) (fun _ => 1) (fun _ => 0) 1 0 1 1 1 1 2
        (fun _ => 1) (0, 0, 0) true (fun _ _ _ => (0.3, true)) ∧
    (get_cnb_vecs 1 (fun _ => 0) (fun _ => 1) (fun _ => 0) 1 0 1 1 1 1 2
        (fun _ => 1) (0, 0, 0) true (fun _ _ _ => (0.3, false))).2.1 0 =
      ((fun _ _ _ => ((0.3 : ℝ), false)) ((fun _ : ℕ => (1 : ℝ)) 0)
        ((get_cnb_vecs 1 (fun _ => 0) (fun _ => 1) (fun _ => 0) 1 0 1 1 1 1 2
          (fun _ => 1) (0, 0, 0) true (fun _ _ _ => (0.3, false))).1 0)
        ((fun _ : ℕ => (1 : ℝ)) 0)).1) :=
  ⟨fun _ _ _ => rfl,
    get_cnb_vecs_ignores_solver_status 1 0 1 1 1 1 2 0 0 0 (fun _ => 0)
      (fun _ => 1) (fun _ => 0) (fun _ => 1) 1 0 true
      (fun _ _ _ => (0.3, false)) (fun _ _ _ => (0.3, true))
      (fun _ _ _ => rfl)⟩

/-- C8 (counterexample to the claim as stated): a failing per-period solve is
observationally identical to a successful one — with the same iterate `0.3`
and `success = false`, `get_cnb_vecs` returns exactly the output of the
`success = true` run, and the unconverged iterate `0.3` is silently used as
period-0 labor supply.  No non-convergence signal reaches the caller. -/
theorem get_cnb_vecs_silent_nonconvergence :
    get_cnb_vecs 1 (fun _ => 0) (fun _ => 1) (fun _ => 0) 1 0 1 1 1 1 2
        (fun _ => 1) (0, 0, 0) true (fun _ _ _ => (0.3, false)) =
      get_cnb_vecs 1 (fun _ => 0) (fun _ => 1) (fun _ => 0) 1 0 1 1 1 1 2
        (fun _ => 1) (0, 0, 0) true (fun _ _ _ => (0.3, true)) ∧
    (get_cnb_vecs 1 (fun _ => 0) (fun _ => 1) (fun _ => 0) 1 0 1 1 1 1 2
        (fun _ => 1) (0, 0, 0) true (fun _ _ _ => (0.3, false))).2.1 0 = 0.3 :=
  ⟨rfl, rfl⟩

/-- C9 (amended): the module performs no parameter validation.  Even under
explicitly out-of-range parameters (`sigma < 1`, `upsilon ≤ 1`,
`l_tilde ≤ 0`), `MU_c_stitch` still returns the CRRA value on `c ≥ epsilon`
and `get_cnb_vecs` still invokes the per-period solve and returns its
iterate: no entry point fails fast. -/
theorem no_parameter_validation (c sigma l_tilde b_ellip upsilon : ℝ)
    (hsig : sigma < 1) (hups : upsilon ≤ 1) (hlt : l_tilde ≤ 0)
    (c_init b_init beta tau_l tau_k tau_c : ℝ)
    (rpath wpath xpath chi_n_vec : ℕ → ℝ) (p t : ℕ) (diff : Bool)
    (nsolve : ℝ → ℝ → ℝ → ℝ × Bool) :
    (MU_epsilon ≤ c → MU_c_stitch c sigma = c ^ (-sigma)) ∧
    (get_cnb_vecs c_init rpath wpath xpath p b_init beta sigma l_tilde b_ellip
        upsilon chi_n_vec (tau_l, tau_k, tau_c) diff nsolve).2.1 t =
      (nsolve (wpath t)
        ((get_cnb_vecs c_init rpath wpath xpath p b_init beta sigma l_tilde
          b_ellip upsilon chi_n_vec (tau_l, tau_k, tau_c) diff nsolve).1 t)
        (chi_n_vec t)).1 :=
  ⟨fun h => by rw [MU_c_stitch, if_neg (not_lt.mpr h)], rfl⟩

/-- Witness for C9's amended statement at the invalid parameters `sigma = 0`,
`upsilon = 1`, `l_tilde = -1`. -/
theorem no_parameter_validation_witness :
    ((0 : ℝ) < 1 ∧ (1 : ℝ) ≤ 1 ∧ (-1 : ℝ) ≤ 0) ∧
    ((MU_epsilon ≤ 2 → MU_c_stitch 2 0 = (2 : ℝ) ^ (-(0 : ℝ))) ∧
    (get_cnb_vecs 1 (fun _ => 0) (fun _ => 0) (fun _ => 0) 1 0 1 0 (-1) 1 1
        (fun _ => 1) (0, 0, 0) true (fun _ _ _ => (0.5, true))).2.1 0 =
      ((fun _ _ _ => ((0.5 : ℝ), true)) ((fun _ : ℕ => (0 : ℝ)) 0)
        ((get_cnb_vecs 1 (fun _ => 0) (fun _ => 0) (fun _ => 0) 1 0 1 0 (-1) 1
          1 (fun _ => 1) (0, 0, 0) true (fun _ _ _ => (0.5, true))).1 0)
        ((fun _ : ℕ => (1 : ℝ)) 0)).1) :=
  ⟨⟨by norm_num, by norm_num, by norm_num⟩,
    no_parameter_validation 2 0 (-1) 1 1 (by norm_num) (by norm_num)
      (by norm_num) 1 0 1 0 0 0 (fun _ => 0) (fun _ => 0) (fun _ => 0)
      (fun _ => 1) 1 0 true (fun _ _ _ => (0.5, true))⟩

/-- C9 (counterexample to the claim as stated): invoked with the invalid
parameters `sigma = 0` (violating `sigma ≥ 1`) and `l_tilde = -1`
(non-positive), the entry points do not fail: `MU_c_stitch 2 0` returns the
ordinary CRRA value `1`, and `get_cnb_vecs` proceeds to attempt the
per-period solve, returning its iterate `0.5` as labor supply. -/
theorem no_parameter_validation_example :
    MU_c_stitch 2 0 = 1 ∧
    (get_cnb_vecs 1 (fun _ => 0) (fun _ => 0) (fun _ => 0) 1 0 1 0 (-1) 1 1
        (fun _ => 1) (0, 0, 0) true (fun _ _ _ => (0.5, true))).2.1 0 = 0.5 := by
  refine ⟨?_, rfl⟩
  rw [MU_c_stitch, if_neg (by norm_num [MU_epsilon]), neg_zero, Real.rpow_zero]

/-- C3: `MU_c_stitch` returns `c ^ (-sigma)` when `c ≥ epsilon`
(`epsilon = 1e-4`) and the linear value `2·b2·c + b1` when `c < epsilon`,
where `b2 = −sigma·epsilon^(−sigma−1)/2` and
`b1 = epsilon^(−sigma) − 2·b2·epsilon`; the two branches agree in value and
in first derivative at `c = epsilon`, and the function is total on `ℝ`,
negative consumption included. -/
theorem MU_c_stitch_spec (c sigma : ℝ) (hsigma : 1 ≤ sigma) :
    (MU_epsilon ≤ c → MU_c_stitch c sigma = c ^ (-sigma)) ∧
    (c < MU_epsilon → MU_c_stitch c sigma = 2 * MU_b2 sigma * c + MU_b1 sigma) ∧
    MU_b2 sigma = -sigma * MU_epsilon ^ (-sigma - 1) / 2 ∧
    MU_b1 sigma = MU_epsilon ^ (-sigma) - 2 * MU_b2 sigma * MU_epsilon ∧
    2 * MU_b2 sigma * MU_epsilon + MU_b1 sigma = MU_epsilon ^ (-sigma) ∧
    HasDerivAt (fun y => 2 * MU_b2 sigma * y + MU_b1 sigma) (2 * MU_b2 sigma)
      MU_epsilon ∧
    HasDerivAt (fun y : ℝ => y ^ (-sigma)) (2 * MU_b2 sigma) MU_epsilon := by
  refine ⟨fun h => by rw [MU_c_stitch, if_neg (not_lt.mpr h)],
    fun h => by rw [MU_c_stitch, if_pos h], rfl, rfl, by unfold MU_b1; ring,
    ?_, ?_⟩
  · simpa using ((hasDerivAt_id MU_epsilon).const_mul (2 * MU_b2 sigma)).add_const
      (MU_b1 sigma)
  · have h0 : HasDerivAt (fun y : ℝ => y ^ (-sigma))
        (-sigma * MU_epsilon ^ (-sigma - 1)) MU_epsilon :=
      Real.hasDerivAt_rpow_const (Or.inl (by norm_num [MU_epsilon]))
    have e : 2 * MU_b2 sigma = -sigma * MU_epsilon ^ (-sigma - 1) := by
      unfold MU_b2; ring
    rw [e]; exact h0

/-- Witness for C3 at `c = 1`, `sigma = 2`. -/
theorem MU_c_stitch_spec_witness :
    (1 : ℝ) ≤ 2 ∧
    ((MU_epsilon ≤ 1 → MU_c_stitch 1 2 = (1 : ℝ) ^ (-(2 : ℝ))) ∧
    ((1 : ℝ) < MU_epsilon → MU_c_stitch 1 2 = 2 * MU_b2 2 * 1 + MU_b1 2) ∧
    MU_b2 2 = -2 * MU_epsilon ^ (-(2 : ℝ) - 1) / 2 ∧
    MU_b1 2 = MU_epsilon ^ (-(2 : ℝ)) - 2 * MU_b2 2 * MU_epsilon ∧
    2 * MU_b2 2 * MU_epsilon + MU_b1 2 = MU_epsilon ^ (-(2 : ℝ)) ∧
    HasDerivAt (fun y => 2 * MU_b2 2 * y + MU_b1 2) (2 * MU_b2 2) MU_epsilon ∧
    HasDerivAt (fun y : ℝ => y ^ (-(2 : ℝ))) (2 * MU_b2 2) MU_epsilon) :=
  ⟨by norm_num, MU_c_stitch_spec 1 2 (by norm_num)⟩

end

end Households
